import Mathlib

/-!
Shallow embedding of the YTM Camelot extension background service worker
(`background.js`): key-theory tables, text matching, provider clients,
cache/orchestrator logic, the message handler, and explicit-time models of
the MusicBrainz rate limiter and the AcousticBrainz fetch loop.
-/

namespace Ytm

/-- The whitespace class of the JavaScript `\s` regex escape. -/
def isJsSpace (c : Char) : Bool :=
  c = ' ' ∨ c = '\t' ∨ c = '\n' ∨ c = '\r' ∨ c = '\x0b' ∨ c = '\x0c' ∨
  c = ' ' ∨ c = ' ' ∨ c = ' ' ∨ c = ' ' ∨ c = ' ' ∨
  c = ' ' ∨ c = ' ' ∨ c = ' ' ∨ c = ' ' ∨ c = ' ' ∨
  c = ' ' ∨ c = ' ' ∨ c = ' ' ∨ c = ' ' ∨ c = ' ' ∨
  c = ' ' ∨ c = ' ' ∨ c = '　' ∨ c = '﻿'

/-- The maximal whitespace-delimited words of a string, as strings. -/
def jsWords (s : String) : List String :=
  ((s.toList.splitOnP isJsSpace).map (fun l => String.mk l)).filter (fun w => w ≠ "")

/-- Join words with single spaces (structural, so that it kernel-reduces). -/
def joinSpaced : List String → String
  | [] => ""
  | [w] => w
  | w :: rest => w ++ " " ++ joinSpaced rest

/-- `normalizeWhitespace`: `s.replace(/\s+/g, " ").trim()` — collapse every
maximal whitespace run to a single space and drop leading/trailing runs,
i.e. join the whitespace-delimited words with single spaces. -/
def normalizeWhitespace (s : String) : String :=
  joinSpaced (jsWords s)

/-- ASCII lower-casing, character by character (model of `toLowerCase()`). -/
def jsToLower (s : String) : String :=
  String.mk (s.toList.map Char.toLower)

/-- A character kept by `normForMatch`: the complement of `[^a-z0-9#\s]`. -/
def isMatchKeep (c : Char) : Bool :=
  ('a' ≤ c ∧ c ≤ 'z') ∨ ('0' ≤ c ∧ c ≤ '9') ∨ c = '#' ∨ isJsSpace c

/-- `normForMatch`: lower-case, map curly apostrophes to straight (they are
subsequently stripped anyway), replace every run outside `[a-z0-9#\s]` by a
space, collapse whitespace and trim.  Replacing each stripped character by a
space individually and then collapsing is equivalent to replacing runs. -/
def normForMatch (s : String) : String :=
  normalizeWhitespace
    (String.mk ((jsToLower (normalizeWhitespace s)).toList.map
      (fun c => if isMatchKeep c then c else ' ')))

/-- `tokenSet`: the `Set` of whitespace-delimited tokens of the normalized
string (`new Set(normForMatch(s).split(" ").filter(Boolean))`). -/
def tokenSet (s : String) : Finset String :=
  (((((normForMatch s).toList.splitOnP (fun c => c = ' ')).map
      (fun l => String.mk l)).filter (fun w => w ≠ ""))).toFinset

/-- The intersection count loop of `tokenOverlapScore`:
`for (const t of A) if (B.has(t)) inter++`. -/
def interCount (A B : Finset String) : Nat :=
  (A.filter (fun t => t ∈ B)).card

/-- `tokenOverlapScore`: `0` if either token set is empty, else
`inter / Math.max(A.size, B.size)` (modelled in exact rational arithmetic). -/
def tokenOverlapScore (a b : String) : ℚ :=
  if (tokenSet a).card = 0 ∨ (tokenSet b).card = 0 then 0
  else (interCount (tokenSet a) (tokenSet b) : ℚ) /
    ((max (tokenSet a).card (tokenSet b).card : ℕ) : ℚ)

example : tokenOverlapScore "Hello world" "world hello" = 1 := by with_unfolding_all decide
example : tokenOverlapScore "!" "!" = 0 := by decide
example : tokenOverlapScore "a b" "b c d" = 1 / 3 := by with_unfolding_all decide

/-! ## Key theory (`keyToCamelot`, `normalizeKeyName`, `parseGetsongKeyOf`) -/

/-- The letter class `[A-Ga-g]` of the note-name regexes. -/
def noteLetter (c : Char) : Bool :=
  ('A' ≤ c ∧ c ≤ 'G') ∨ ('a' ≤ c ∧ c ≤ 'g')

/-- `k.replace(/♭/g, "b").replace(/♯/g, "#")`. -/
def glyphToAscii (s : String) : String :=
  String.mk (s.toList.map (fun c => if c = '♭' then 'b' else if c = '♯' then '#' else c))

/-- The `flatsToSharps` object literal of `normalizeKeyName`. -/
def flatsToSharps : List (String × String) :=
  [("DB", "C#"), ("EB", "D#"), ("GB", "F#"), ("AB", "G#"), ("BB", "A#")]

/-- The three recognition branches of `normalizeKeyName`, on the
whitespace/glyph-normalized character list `k`: `/^[A-Ga-g]b$/` goes through
`flatsToSharps` (`|| up[0]` drops an unmapped flat), `/^[A-Ga-g]#$/` keeps
the sharp with the letter upper-cased, `/^[A-Ga-g]$/` upper-cases; `none`
means no regex matched (the fallback). -/
def normKeyCore (k : List Char) : Option String :=
  match k with
  | [c, 'b'] =>
    if noteLetter c then
      some (match List.lookup (String.mk [c.toUpper, 'B']) flatsToSharps with
        | some v => v
        | none => String.mk [c.toUpper])
    else none
  | [c, '#'] => if noteLetter c then some (String.mk [c.toUpper, '#']) else none
  | [c] => if noteLetter c then some (String.mk [c.toUpper]) else none
  | _ => none

/-- `normalizeKeyName`: whitespace-normalize, convert Unicode accidentals to
ASCII, then apply the recognition branches; an unrecognized string is
returned in its whitespace/glyph-normalized form `k` (the code's fallback
`return k`). -/
def normalizeKeyName (key : String) : String :=
  let k := glyphToAscii (normalizeWhitespace key)
  (normKeyCore k.toList).getD k

/-- The `MAJOR` object literal of `keyToCamelot`. -/
def MAJOR : List (String × String) :=
  [("C", "8B"), ("G", "9B"), ("D", "10B"), ("A", "11B"), ("E", "12B"),
   ("B", "1B"), ("F#", "2B"), ("C#", "3B"), ("G#", "4B"), ("D#", "5B"),
   ("A#", "6B"), ("F", "7B")]

/-- The `MINOR` object literal of `keyToCamelot`. -/
def MINOR : List (String × String) :=
  [("A", "8A"), ("E", "9A"), ("B", "10A"), ("F#", "11A"), ("C#", "12A"),
   ("G#", "1A"), ("D#", "2A"), ("A#", "3A"), ("F", "4A"), ("C", "5A"),
   ("G", "6A"), ("D", "7A")]

/-- `keyToCamelot`: normalize the note name, lower-case the mode, and look the
note up in the `MAJOR` or `MINOR` table; `null` otherwise. -/
def keyToCamelot (key mode : String) : Option String :=
  let k := normalizeKeyName key
  let m := jsToLower mode
  if m = "major" then List.lookup k MAJOR
  else if m = "minor" then List.lookup k MINOR
  else none

example : keyToCamelot "C" "major" = some "8B" := by decide
example : keyToCamelot "A" "minor" = some "8A" := by decide
example : keyToCamelot "Db" "major" = some "3B" := by decide
example : keyToCamelot "C" "Major" = some "8B" := by decide
example : keyToCamelot "B#" "major" = none := by decide
example : normalizeKeyName " x " = "x" := by decide
example : normalizeKeyName "bb" = "A#" := by decide
example : normalizeKeyName "Cb" = "C" := by decide

/-- The accidental class `[#b♯♭]` of the compact key regex (case-sensitive). -/
def accChar (c : Char) : Bool :=
  c = '#' ∨ c = 'b' ∨ c = '♯' ∨ c = '♭'

/-- The accidental class `[#b♯♭]` under the `/i` flag of the verbose key
regex: additionally matches the upper-case `B`. -/
def accCharI (c : Char) : Bool :=
  accChar c ∨ c = 'B'

/-- `acc.replace("♯", "#").replace("♭", "b")` on a one-character accidental. -/
def accToAscii (c : Char) : Char :=
  if c = '♯' then '#' else if c = '♭' then 'b' else c

/-- Match of `/^([A-Ga-g])([#b♯♭]?)(m)?$/` returning (letter, accidental,
minor flag). The accidental group is greedy; `m` only matches a literal
lower-case `m`. -/
def parseCompact (l : List Char) : Option (Char × Option Char × Bool) :=
  match l with
  | [L] => if noteLetter L then some (L, none, false) else none
  | [L, c] =>
    if noteLetter L then
      if c = 'm' then some (L, none, true)
      else if accChar c then some (L, some c, false) else none
    else none
  | [L, c, 'm'] => if noteLetter L ∧ accChar c then some (L, some c, true) else none
  | _ => none

/-- `(major|minor)/i` preceded by `\s*`, anchored at the end: drop leading
spaces (the input is already whitespace-normalized, so `\s` can only be a
space) and compare the rest case-insensitively. -/
def tailMode (cs : List Char) : Option String :=
  let w := jsToLower (String.mk (cs.dropWhile (fun c => c = ' ')))
  if w = "major" ∨ w = "minor" then some w else none

/-- Match of `/^([A-Ga-g])([#b♯♭]?)\s*(major|minor)$/i` returning (letter,
accidental, lower-cased mode word).  A greedy accidental match that leaves no
mode word behind is backtracked to the empty accidental (this situation never
arises, since no accidental character starts `major`/`minor`, but it is part
of the regex semantics). -/
def parseVerbose (l : List Char) : Option (Char × Option Char × String) :=
  match l with
  | [] => none
  | L :: rest =>
    if noteLetter L then
      match rest with
      | [] => none
      | c :: rest2 =>
        if accCharI c then
          match tailMode rest2 with
          | some w => some (L, some c, w)
          | none =>
            match tailMode rest with
            | some w => some (L, none, w)
            | none => none
        else
          match tailMode rest with
          | some w => some (L, none, w)
          | none => none
    else none

/-- `parseGetsongKeyOf`: whitespace-normalize, empty means `null`; then try
the compact form (`"Em"`, `"F#m"`, `"Bb"`), then the verbose form
(`"E minor"`, `"A major"`), building the key through `normalizeKeyName`. -/
def parseGetsongKeyOf (keyOfRaw : String) : Option (String × String) :=
  let raw := normalizeWhitespace keyOfRaw
  if raw = "" then none
  else
    match parseCompact raw.toList with
    | some (L, acc, isMinor) =>
      let accS := match acc with
        | some c => String.mk [accToAscii c]
        | none => ""
      some (normalizeKeyName (String.mk [L.toUpper] ++ accS),
            if isMinor then "minor" else "major")
    | none =>
      match parseVerbose raw.toList with
      | some (L, acc, scale) =>
        let accS := match acc with
          | some c => String.mk [accToAscii c]
          | none => ""
        some (normalizeKeyName (String.mk [L.toUpper] ++ accS), scale)
      | none => none

example : parseGetsongKeyOf "F#m" = some ("F#", "minor") := by decide
example : parseGetsongKeyOf "A major" = some ("A", "major") := by decide
example : parseGetsongKeyOf "" = none := by decide
example : parseGetsongKeyOf "Bb" = some ("A#", "major") := by decide
example : parseGetsongKeyOf "Bbm" = some ("A#", "minor") := by decide
example : parseGetsongKeyOf "B#" = some ("B#", "major") := by decide
example : parseGetsongKeyOf "E minor" = some ("E", "minor") := by decide
example : parseGetsongKeyOf "Hm" = none := by decide

/-! ## The canonical Camelot wheel, defined independently of the tables

The Camelot wheel assigns `8B` to C major and increments the number (mod 12)
when moving up a perfect fifth (7 semitones); a minor key shares the number
of its relative major (3 semitones up) with letter `A`.  This pitch-class
formulation is used as the independent reference that the `MAJOR`/`MINOR`
object literals are checked against. -/

/-- The 12 normalized note names, in pitch-class order starting at C (the
naturals with their sharps, in the sharp spelling the tables use). -/
def noteNames : List String :=
  ["C", "C#", "D", "D#"] ++ ["E", "F", "F#"] ++ ["G", "G#", "A", "A#", "B"]

/-- The pitch class (semitones above C) of a normalized note name. -/
def pitchClass (note : String) : Option Nat :=
  noteNames.indexOf? note

/-- The Camelot wheel number of a major key with the given pitch class:
C major (pc 0) is 8, and each fifth upward adds 1 (mod 12). -/
def camelotNumberMajor (pc : Nat) : Nat :=
  (pc * 7 + 7) % 12 + 1

/-- The canonical Camelot code of a note/mode pair. -/
def canonicalCamelot (note mode : String) : Option String :=
  (pitchClass note).bind (fun pc =>
    if mode = "major" then some (toString (camelotNumberMajor pc) ++ "B")
    else if mode = "minor" then some (toString (camelotNumberMajor ((pc + 3) % 12)) ++ "A")
    else none)

example : canonicalCamelot "C" "major" = some "8B" := by decide
example : canonicalCamelot "A" "minor" = some "8A" := by decide

/-! ## Provider A: GetSongBPM client (`lookupViaGetSongBpm`) -/

/-- JS truthiness of a nullable string: `null`/`undefined` and `""` are falsy. -/
def jsTruthyStr : Option String → Bool
  | some s => s ≠ ""
  | none => false

/-- `x || null` on a nullable string. -/
def jsStrOrNull (o : Option String) : Option String :=
  match o with
  | some s => if s = "" then none else some s
  | none => none

/-- One entry of the GetSongBPM `data.search` array, restricted to the fields
the client reads.  `title`/`artistName` model `s.title || ""` and
`s.artist?.name || ""`; `keyOf` models `s.key_of` (`""` for a missing field,
which `parseGetsongKeyOf` maps to `null` like the original); `id` models
`s.id` with `none` for a missing field. -/
structure GsbItem where
  title : String := ""
  artistName : String := ""
  keyOf : String := ""
  id : Option String := none
deriving DecidableEq

/-- The match score of one search result:
`tokenOverlapScore(s.title||"", title) * 0.7 + tokenOverlapScore(s.artist?.name||"", artist) * 0.3`. -/
def gsbScore (title artist : String) (s : GsbItem) : ℚ :=
  tokenOverlapScore s.title title * (7 / 10) + tokenOverlapScore s.artistName artist * (3 / 10)

/-- `items.sort((a, b) => b.score - a.score)`: a stable sort, descending by
score.  `List.insertionSort` with this non-strict relation is stable, hence
produces the same list as the JS engine's stable sort. -/
def gsbRank (title artist : String) (items : List GsbItem) : List GsbItem :=
  items.insertionSort (fun a b => gsbScore title artist b ≤ gsbScore title artist a)

/-- The `for (const {s} of ranked.slice(0,5))` loop body: the first item whose
`key_of` parses, together with the parse result. -/
def firstParsed : List GsbItem → Option (GsbItem × String × String)
  | [] => none
  | s :: rest =>
    match parseGetsongKeyOf s.keyOf with
    | some (k, sc) => some (s, k, sc)
    | none => firstParsed rest

/-- The object returned by `lookupViaGetSongBpm` on success. -/
structure GsbOut where
  camelot : Option String
  key : String
  mode : String
  provider : String
  providerId : Option String
deriving DecidableEq

/-- `lookupViaGetSongBpm`: `null` without an API key, on a non-success HTTP
status, or on an empty result list; otherwise rank the results, scan the top
5 for the first parseable `key_of`, and return it with
`provider: "getsongbpm"` (the `camelot || null` and `s.id || null`
coercions are `jsStrOrNull`). -/
def lookupViaGetSongBpm (apiKey : String) (httpOk : Bool) (items : List GsbItem)
    (title artist : String) : Option GsbOut :=
  if apiKey = "" then none
  else if ¬httpOk then none
  else if items = [] then none
  else
    match firstParsed ((gsbRank title artist items).take 5) with
    | some (s, k, sc) =>
      some { camelot := jsStrOrNull (keyToCamelot k sc), key := k, mode := sc,
             provider := "getsongbpm", providerId := jsStrOrNull s.id }
    | none => none

example :
    lookupViaGetSongBpm "key" true [{ title := "a", artistName := "a", keyOf := "Em" }] "a" "a" =
      some { camelot := some "9A", key := "E", mode := "minor",
             provider := "getsongbpm", providerId := none } := by
  with_unfolding_all decide

/-! ## Provider B stage 1: MusicBrainz recording search -/

/-- `MUSICBRAINZ_MIN_SCORE`. -/
def MUSICBRAINZ_MIN_SCORE : ℚ := 60

/-- One raw entry of the `data.recordings` array: `r.id` (`none` for a
missing field) and `r.score ?? 0` before the `Number` coercion. -/
structure MBRec where
  id : Option String := none
  score : Option ℚ := none
deriving DecidableEq

/-- A `RecordingCandidate` (`{ mbid, score }`) surviving the truthiness
filter. -/
structure MBCand where
  mbid : String
  score : ℚ
deriving DecidableEq

/-- The ranking pipeline of `searchMusicBrainzRecordings`:
map to `{mbid, score}`, drop entries with a falsy `mbid`
(`.filter(x => x.mbid)`), sort descending by score (stable), keep scores
`>= MUSICBRAINZ_MIN_SCORE`, truncate to 6. -/
def mbRank (recs : List MBRec) : List MBCand :=
  ((((recs.filterMap (fun r =>
        if jsTruthyStr r.id then some ⟨r.id.getD "", r.score.getD 0⟩ else none))
      : List MBCand).insertionSort (fun x y => y.score ≤ x.score)).filter
      (fun x => MUSICBRAINZ_MIN_SCORE ≤ x.score)).take 6

/-- `searchMusicBrainzRecordings`: issue the three fallback queries in order
(their responses are the three list parameters) and return the first
non-empty ranked candidate list, else `[]`. -/
def searchMusicBrainzRecordings (q1 q2 q3 : List MBRec) : List MBCand :=
  let r1 := mbRank q1
  if r1 ≠ [] then r1
  else
    let r2 := mbRank q2
    if r2 ≠ [] then r2
    else
      let r3 := mbRank q3
      if r3 ≠ [] then r3 else []

/-! ## Provider B stage 2: AcousticBrainz low-level lookup -/

/-- One response of the AcousticBrainz endpoint for a submission index:
`fail` is a 404 or any non-success status; `ok k s` is a success whose
`key`/`scale` are already the results of the
`tonal?.key_key ?? tonal?.chords_key ?? null` chains. -/
inductive ABResp where
  | fail
  | ok (key scale : Option String)
deriving DecidableEq

/-- The `for (let n = 0; n < 3; n++)` loop over a list of responses (one per
issued request): a failing response short-circuits to `null`; a success with
both fields truthy wins; otherwise the next submission index is tried. -/
def fetchABAux : List ABResp → Option (String × String)
  | [] => none
  | ABResp.fail :: _ => none
  | ABResp.ok k s :: rest =>
    if jsTruthyStr k ∧ jsTruthyStr s then some (k.getD "", s.getD "")
    else fetchABAux rest

/-- `fetchAcousticBrainzKeyAnySubmission`, over the responses the service
returns for submission indices 0, 1, 2. -/
def fetchAcousticBrainzKeyAnySubmission (resps : List ABResp) : Option (String × String) :=
  fetchABAux (resps.take 3)

/-- The candidate loop of `lookupCamelot`'s fallback: the first candidate (in
Stage-1 order) whose AcousticBrainz lookup succeeds, with its tonal data.
`ab` maps an mbid to the responses of its submission-index requests. -/
def abFirst (ab : String → List ABResp) : List MBCand → Option (MBCand × String × String)
  | [] => none
  | mb :: rest =>
    match fetchAcousticBrainzKeyAnySubmission (ab mb.mbid) with
    | some (k, s) => some (mb, k, s)
    | none => abFirst ab rest

/-! ## Resolution orchestrator (`lookupCamelot`) and cache -/

/-- `CACHE_TTL_MS = 1000 * 60 * 60 * 24 * 30` (30 days). -/
def CACHE_TTL_MS : Int := 1000 * 60 * 60 * 24 * 30

/-- The record cached and returned by `lookupCamelot`.  A plain `Option`
field uses `none` for an explicit JS `null`.  The `provider` and
`providerId` fields are `Option (Option String)`: the outer `none` means the
object literal does not set the field at all (JS `undefined`), `some none`
means an explicit `null`, `some (some v)` a string value. -/
structure ResolvedKey where
  camelot : Option String
  key : Option String
  mode : Option String
  provider : Option (Option String)
  providerId : Option (Option String)
  mbid : Option String
  score : Option ℚ
  cachedAt : Int
deriving DecidableEq

/-- The persistent cache, keyed by `cacheKey`. -/
def Cache : Type := String → Option ResolvedKey

/-- `chrome.storage.local.set({ [cacheKey]: out })`. -/
def cacheSet (cache : Cache) (k : String) (v : ResolvedKey) : Cache :=
  fun k2 => if k2 = k then some v else cache k2

/-- The outcome of one `lookupCamelot` run: the returned record, the cache
afterwards, and whether the Provider A / Provider B clients were invoked. -/
structure LookupOut where
  result : ResolvedKey
  cacheAfter : Cache
  invokedA : Bool
  invokedB : Bool

/-- The external world of one resolution: the Provider A credential and
responses, the three MusicBrainz query responses, and the AcousticBrainz
responses per mbid. -/
structure ResolveEnv where
  apiKey : String
  gsbOk : Bool
  gsbItems : List GsbItem
  mbQ1 : List MBRec
  mbQ2 : List MBRec
  mbQ3 : List MBRec
  ab : String → List ABResp

/-- The all-`null` miss record written when no Stage-1 candidate exists
(`{ camelot: null, key: null, mode: null, mbid: null, score: null, cachedAt: now }`;
note the literal sets no `provider`/`providerId`). -/
def missRecord (now : Int) : ResolvedKey :=
  { camelot := none, key := none, mode := none, provider := none,
    providerId := none, mbid := none, score := none, cachedAt := now }

/-- The cache-miss path of `lookupCamelot`: try GetSongBPM, else the
MusicBrainz → AcousticBrainz fallback, caching every outcome at `now`. -/
def resolveFresh (env : ResolveEnv) (cache : Cache) (now : Int)
    (cacheKey title artist : String) : LookupOut :=
  match lookupViaGetSongBpm env.apiKey env.gsbOk env.gsbItems title artist with
  | some g =>
    let out : ResolvedKey :=
      { camelot := g.camelot, key := some g.key, mode := some g.mode,
        provider := some (some g.provider), providerId := some g.providerId,
        mbid := none, score := none, cachedAt := now }
    ⟨out, cacheSet cache cacheKey out, true, false⟩
  | none =>
    let candidates := searchMusicBrainzRecordings env.mbQ1 env.mbQ2 env.mbQ3
    match candidates with
    | [] => ⟨missRecord now, cacheSet cache cacheKey (missRecord now), true, true⟩
    | c0 :: _ =>
      match abFirst env.ab candidates with
      | some (mb, k, s) =>
        let out : ResolvedKey :=
          { camelot := jsStrOrNull (keyToCamelot k s),
            key := some (normalizeKeyName k),
            mode := jsStrOrNull (some (jsToLower s)),
            provider := none, providerId := none,
            mbid := some mb.mbid, score := some mb.score, cachedAt := now }
        ⟨out, cacheSet cache cacheKey out, true, true⟩
      | none =>
        let miss : ResolvedKey :=
          { camelot := none, key := none, mode := none,
            provider := none, providerId := none,
            mbid := some c0.mbid, score := some c0.score, cachedAt := now }
        ⟨miss, cacheSet cache cacheKey miss, true, true⟩

/-- `lookupCamelot`: return a fresh cached record unchanged (without calling
any provider), else resolve and cache. -/
def lookupCamelot (env : ResolveEnv) (cache : Cache) (now : Int)
    (cacheKey title artist : String) : LookupOut :=
  match cache cacheKey with
  | some cached =>
    if now - cached.cachedAt < CACHE_TTL_MS then ⟨cached, cache, false, false⟩
    else resolveFresh env cache now cacheKey title artist
  | none => resolveFresh env cache now cacheKey title artist

/-! ## Message handler and serial queue structure -/

/-- An inbound runtime message; `none` fields are absent (`undefined`). -/
structure RuntimeMsg where
  type : String
  title : Option String := none
  artist : Option String := none
  cacheKey : Option String := none
deriving DecidableEq

/-- The listener's type guard:
`t !== "LOOKUP_CAMELOT" && t !== "LOOKUP_CAMELot"` returns early. -/
def acceptsMsg (m : RuntimeMsg) : Bool :=
  m.type = "LOOKUP_CAMELOT" ∨ m.type = "LOOKUP_CAMELot"

/-- `chrome.runtime.onMessage` listener effect on the serial queue:
`queue = queue.then(async () => { ... })` appends one continuation for every
accepted message — including messages with missing fields, whose validation
only happens inside the queued continuation. -/
def onMessage (m : RuntimeMsg) (queue : List RuntimeMsg) : List RuntimeMsg :=
  if acceptsMsg m then queue ++ [m] else queue

/-- The payload passed to `sendResponse`. -/
structure MsgResponse where
  ok : Bool
  data : Option ResolvedKey
deriving DecidableEq

/-- The body of the queued continuation: normalize `title`/`artist`, and if
any of `title`/`artist`/`cacheKey` is falsy respond `{ ok: true, data: null }`
without resolving; otherwise run `lookupCamelot` and respond with its result.
The second component records whether a resolution was performed. -/
def runQueuedLookup (env : ResolveEnv) (cache : Cache) (now : Int)
    (m : RuntimeMsg) : MsgResponse × Bool :=
  let title := normalizeWhitespace (m.title.getD "")
  let artist := normalizeWhitespace (m.artist.getD "")
  let cacheKey := m.cacheKey.getD ""
  if title = "" ∨ artist = "" ∨ cacheKey = "" then (⟨true, none⟩, false)
  else ((⟨true, some (lookupCamelot env cache now cacheKey title artist).result⟩ : MsgResponse),
        true)

/-! ## Explicit-time models of the two Provider B request paths -/

/-- `MB_MIN_INTERVAL_MS`. -/
def MB_MIN_INTERVAL_MS : Int := 1100

/-- The issue times of a sequence of `rateLimitedMusicBrainzFetch` calls.
`last` is `lastMbRequestAt`; each call arriving at wall-clock time `now`
computes `wait = max(0, 1100 - (now - last))`, sleeps `wait`, so the request
is issued (and `lastMbRequestAt` updated) at `now + wait`. -/
def mbIssueTimes (last : Int) : List Int → List Int
  | [] => []
  | now :: rest =>
    let wait := max 0 (MB_MIN_INTERVAL_MS - (now - last))
    let issue := now + wait
    issue :: mbIssueTimes issue rest

/-- The request times of `fetchAcousticBrainzKeyAnySubmission`'s loop: each
iteration issues a plain `fetch` immediately (there is no rate-limit wait in
that function), so the next request goes out as soon as the previous response
arrives.  `env` pairs each response with its latency. -/
def abFetchTimesAux : Nat → Int → List (Int × ABResp) → List Int
  | 0, _, _ => []
  | _, _, [] => []
  | fuel + 1, t, (lat, r) :: rest =>
    t :: match r with
      | ABResp.fail => []
      | ABResp.ok k s =>
        if jsTruthyStr k ∧ jsTruthyStr s then []
        else abFetchTimesAux fuel (t + lat) rest

/-- Request times of the (up to 3) AcousticBrainz requests for one candidate,
starting at time `t0`. -/
def abFetchTimes (t0 : Int) (env : List (Int × ABResp)) : List Int :=
  abFetchTimesAux 3 t0 env

example : mbIssueTimes 0 [100, 200, 2500] = [1100, 2200, 3300] := by decide
example :
    abFetchTimes 0 [(5, ABResp.ok (some "C") none), (7, ABResp.ok (some "C") none), (9, ABResp.fail)] =
      [0, 5, 12] := by decide

/-- A concrete resolution environment: Provider A unconfigured (no API key),
one MusicBrainz candidate `m1` with score 90 whose first AcousticBrainz
submission carries tonal data C major. -/
def envC3 : ResolveEnv :=
  ⟨"", false, [], [{ id := some "m1", score := some 90 }], [], [],
   fun m => if m = "m1" then [ABResp.ok (some "C") (some "major")] else []⟩

/-- A concrete resolution environment for the Provider A path: one search
result whose `key_of` is `"B#"` — parseable, but absent from the Camelot
tables. -/
def envBSharp : ResolveEnv :=
  ⟨"key", true, [{ title := "t", artistName := "a", keyOf := "B#", id := some "song1" }],
   [], [], [], fun _ => []⟩

/-! ## Helper lemmas -/

/-- The membership loop of `tokenOverlapScore` counts the intersection. -/
lemma interCount_eq_card_inter (A B : Finset String) : interCount A B = (A ∩ B).card := by
  unfold interCount
  rw [Finset.filter_mem_eq_inter]

/-- A key whose lookup in an association list succeeds is among its keys. -/
lemma mem_keys_of_lookup_ne_none {k : String} {l : List (String × String)}
    (h : List.lookup k l ≠ none) : k ∈ l.map Prod.fst := by
  induction l with
  | nil => simp [List.lookup] at h
  | cons p t ih =>
    rw [List.lookup] at h
    by_cases hk : k = p.1
    · simp [hk]
    · have : (k == p.1) = false := beq_false_of_ne hk
      simp only [this] at h
      simpa using Or.inr (ih h)

/-- Every key of the `MAJOR` table is one of the 12 note names. -/
lemma major_keys_sub : ∀ x ∈ MAJOR.map Prod.fst, x ∈ noteNames := by decide

/-- Every key of the `MINOR` table is one of the 12 note names. -/
lemma minor_keys_sub : ∀ x ∈ MINOR.map Prod.fst, x ∈ noteNames := by decide

/-- `gsbRank` sorts descending by the weighted overlap score. -/
lemma gsbRank_sorted (title artist : String) (items : List GsbItem) :
    (gsbRank title artist items).Sorted
      (fun a b => gsbScore title artist b ≤ gsbScore title artist a) := by
  haveI : IsTotal GsbItem (fun a b => gsbScore title artist b ≤ gsbScore title artist a) :=
    ⟨fun a b => le_total (gsbScore title artist b) (gsbScore title artist a)⟩
  haveI : IsTrans GsbItem (fun a b => gsbScore title artist b ≤ gsbScore title artist a) :=
    ⟨fun a b c hab hbc => le_trans hbc hab⟩
  exact List.sorted_insertionSort _ items

/-- `gsbRank` permutes the search results. -/
lemma gsbRank_perm (title artist : String) (items : List GsbItem) :
    List.Perm (gsbRank title artist items) items :=
  List.perm_insertionSort _ items

/-- The top-5 loop returns `null` exactly when no examined item parses. -/
lemma firstParsed_eq_none {l : List GsbItem} :
    firstParsed l = none ↔ ∀ s ∈ l, parseGetsongKeyOf s.keyOf = none := by
  induction l with
  | nil => simp [firstParsed]
  | cons s rest ih =>
    unfold firstParsed
    cases hp : parseGetsongKeyOf s.keyOf with
    | some v =>
      obtain ⟨k, sc⟩ := v
      simp [hp]
    | none => simp [hp, ih]

/-- A successful top-5 scan returns the first parseable item: everything
before it in the ranked order fails to parse. -/
lemma firstParsed_eq_some {l : List GsbItem} {s : GsbItem} {k sc : String}
    (h : firstParsed l = some (s, k, sc)) :
    parseGetsongKeyOf s.keyOf = some (k, sc) ∧
    ∃ pre suf, l = pre ++ s :: suf ∧ ∀ x ∈ pre, parseGetsongKeyOf x.keyOf = none := by
  induction l with
  | nil => simp [firstParsed] at h
  | cons a rest ih =>
    rw [firstParsed] at h
    cases hp : parseGetsongKeyOf a.keyOf with
    | some v =>
      obtain ⟨k2, sc2⟩ := v
      rw [hp] at h
      simp only [Option.some.injEq, Prod.mk.injEq] at h
      obtain ⟨ha, hk, hsc⟩ := h
      subst ha
      subst hk
      subst hsc
      exact ⟨hp, [], rest, rfl, by simp⟩
    | none =>
      rw [hp] at h
      obtain ⟨hparse, pre, suf, hl, hpre⟩ := ih h
      refine ⟨hparse, a :: pre, suf, by simp [hl], ?_⟩
      intro x hx
      rcases List.mem_cons.mp hx with hx | hx
      · rw [hx]
        exact hp
      · exact hpre x hx

/-- A successful candidate loop returns the first Stage-1 candidate (in
order) whose AcousticBrainz lookup succeeds: all earlier candidates fail. -/
lemma abFirst_eq_some {ab : String → List ABResp} {l : List MBCand} {mb : MBCand}
    {k s : String} (h : abFirst ab l = some (mb, k, s)) :
    fetchAcousticBrainzKeyAnySubmission (ab mb.mbid) = some (k, s) ∧
    ∃ pre suf, l = pre ++ mb :: suf ∧
      ∀ c ∈ pre, fetchAcousticBrainzKeyAnySubmission (ab c.mbid) = none := by
  induction l with
  | nil => simp [abFirst] at h
  | cons a rest ih =>
    rw [abFirst] at h
    cases hp : fetchAcousticBrainzKeyAnySubmission (ab a.mbid) with
    | some v =>
      obtain ⟨k2, s2⟩ := v
      rw [hp] at h
      simp only [Option.some.injEq, Prod.mk.injEq] at h
      obtain ⟨ha, hk, hs⟩ := h
      subst ha
      subst hk
      subst hs
      exact ⟨hp, [], rest, rfl, by simp⟩
    | none =>
      rw [hp] at h
      obtain ⟨hfetch, pre, suf, hl, hpre⟩ := ih h
      refine ⟨hfetch, a :: pre, suf, by simp [hl], ?_⟩
      intro c hc
      rcases List.mem_cons.mp hc with hc | hc
      · rw [hc]
        exact hp
      · exact hpre c hc

/-- Every path of `resolveFresh` invokes Provider A, stamps the result with
`now`, and writes it to the cache under `cacheKey`. -/
lemma resolveFresh_fields (env : ResolveEnv) (cache : Cache) (now : Int)
    (cacheKey title artist : String) :
    (resolveFresh env cache now cacheKey title artist).invokedA = true ∧
    (resolveFresh env cache now cacheKey title artist).cacheAfter cacheKey =
      some (resolveFresh env cache now cacheKey title artist).result ∧
    (resolveFresh env cache now cacheKey title artist).result.cachedAt = now := by
  unfold resolveFresh
  cases lookupViaGetSongBpm env.apiKey env.gsbOk env.gsbItems title artist with
  | some g => exact ⟨rfl, by simp [cacheSet], rfl⟩
  | none =>
    dsimp only
    cases searchMusicBrainzRecordings env.mbQ1 env.mbQ2 env.mbQ3 with
    | nil => exact ⟨rfl, by simp [cacheSet], rfl⟩
    | cons c0 tl =>
      cases abFirst env.ab (c0 :: tl) with
      | some x =>
        obtain ⟨mb, k, s⟩ := x
        exact ⟨rfl, by simp [cacheSet], rfl⟩
      | none => exact ⟨rfl, by simp [cacheSet], rfl⟩

/-- When Provider A yields nothing, `resolveFresh` invokes Provider B. -/
lemma resolveFresh_invokedB (env : ResolveEnv) (cache : Cache) (now : Int)
    (cacheKey title artist : String)
    (hA : lookupViaGetSongBpm env.apiKey env.gsbOk env.gsbItems title artist = none) :
    (resolveFresh env cache now cacheKey title artist).invokedB = true := by
  unfold resolveFresh
  rw [hA]
  dsimp only
  cases searchMusicBrainzRecordings env.mbQ1 env.mbQ2 env.mbQ3 with
  | nil => rfl
  | cons c0 tl =>
    cases abFirst env.ab (c0 :: tl) with
    | some x =>
      obtain ⟨mb, k, s⟩ := x
      rfl
    | none => rfl

/-! ## Claim theorems -/

/-- C7 counterexample: the claim asserts `tokenOverlapScore(a, a) = 1` for
every non-empty string `a`, but `"!"` is non-empty while its normalized token
set is empty, so the score of `"!"` with itself is `0`, not `1`. -/
theorem tokenOverlapScore_self_not_one_on_bang :
    ("!" : String) ≠ "" ∧ tokenOverlapScore "!" "!" = 0 ∧ tokenOverlapScore "!" "!" ≠ 1 :=
  ⟨by decide, by decide, by decide⟩

/-- C7 (amended): `tokenOverlapScore a a = 1` for every `a` whose normalized
token set is non-empty (not for every non-empty string); the score is `0`
whenever the token sets do not intersect (in particular when either is
empty); it is symmetric; it lies in `[0, 1]`; and on non-empty token sets it
equals `|A ∩ B| / max(|A|, |B|)`. -/
theorem tokenOverlapScore_props :
    (∀ a : String, (tokenSet a).Nonempty → tokenOverlapScore a a = 1) ∧
    (∀ a b : String, tokenSet a ∩ tokenSet b = ∅ → tokenOverlapScore a b = 0) ∧
    (∀ a b : String, tokenOverlapScore a b = tokenOverlapScore b a) ∧
    (∀ a b : String, 0 ≤ tokenOverlapScore a b ∧ tokenOverlapScore a b ≤ 1) ∧
    (∀ a b : String, (tokenSet a).Nonempty → (tokenSet b).Nonempty →
      tokenOverlapScore a b =
        ((tokenSet a ∩ tokenSet b).card : ℚ) /
          ((max (tokenSet a).card (tokenSet b).card : ℕ) : ℚ)) := by
  have hscore : ∀ a b : String, tokenOverlapScore a b =
      if (tokenSet a).card = 0 ∨ (tokenSet b).card = 0 then 0
      else ((tokenSet a ∩ tokenSet b).card : ℚ) /
        ((max (tokenSet a).card (tokenSet b).card : ℕ) : ℚ) := by
    intro a b
    unfold tokenOverlapScore
    rw [interCount_eq_card_inter]
  refine ⟨?_, ?_, ?_, ?_, ?_⟩
  · intro a ha
    have hc : (tokenSet a).card ≠ 0 := Finset.card_ne_zero_of_mem ha.choose_spec
    rw [hscore, if_neg (by simp [hc]), Finset.inter_self, max_self]
    exact div_self (by exact_mod_cast hc)
  · intro a b hab
    rw [hscore]
    by_cases h : (tokenSet a).card = 0 ∨ (tokenSet b).card = 0
    · rw [if_pos h]
    · rw [if_neg h, hab, Finset.card_empty, Nat.cast_zero, zero_div]
  · intro a b
    rw [hscore, hscore]
    by_cases h : (tokenSet a).card = 0 ∨ (tokenSet b).card = 0
    · rw [if_pos h, if_pos h.symm]
    · rw [if_neg h, if_neg (fun hc => h hc.symm),
        Finset.inter_comm, Nat.max_comm ((tokenSet a).card) ((tokenSet b).card)]
  · intro a b
    rw [hscore]
    by_cases h : (tokenSet a).card = 0 ∨ (tokenSet b).card = 0
    · rw [if_pos h]
      exact ⟨le_refl 0, zero_le_one⟩
    · rw [if_neg h]
      push_neg at h
      have hmaxpos : 0 < max (tokenSet a).card (tokenSet b).card :=
        Nat.lt_of_lt_of_le (Nat.pos_of_ne_zero h.1) (le_max_left _ _)
      have hmax : (0 : ℚ) < ((max (tokenSet a).card (tokenSet b).card : ℕ) : ℚ) := by
        exact_mod_cast hmaxpos
      constructor
      · exact div_nonneg (Nat.cast_nonneg _) (le_of_lt hmax)
      · rw [div_le_one hmax]
        have hle : (tokenSet a ∩ tokenSet b).card ≤ max (tokenSet a).card (tokenSet b).card :=
          le_trans (Finset.card_le_card Finset.inter_subset_left) (le_max_left _ _)
        exact_mod_cast hle
  · intro a b ha hb
    have h1 : (tokenSet a).card ≠ 0 := Finset.card_ne_zero_of_mem ha.choose_spec
    have h2 : (tokenSet b).card ≠ 0 := Finset.card_ne_zero_of_mem hb.choose_spec
    rw [hscore, if_neg (by simp [h1, h2])]

/-- C7 witness: the amended self-similarity part applied at `"a b"`, whose
token set is non-empty. -/
theorem tokenOverlapScore_props_witness : tokenOverlapScore "a b" "a b" = 1 :=
  tokenOverlapScore_props.1 "a b" (by decide)

/-- C1 counterexample: the claim asserts `keyToCamelot` returns `null`
whenever the mode is neither `"major"` nor `"minor"`, but the code
lower-cases the mode first, so `keyToCamelot("C", "Major")` returns `"8B"`
although `"Major"` is neither of the two mode strings. -/
theorem keyToCamelot_capital_mode :
    keyToCamelot "C" "Major" = some "8B" ∧
    ("Major" : String) ≠ "major" ∧ ("Major" : String) ≠ "minor" := by
  refine ⟨by decide, by decide, by decide⟩

set_option maxHeartbeats 2000000 in
/-- C1 (amended): on the 12 normalized note names, `keyToCamelot` with mode
`"major"`/`"minor"` agrees with the canonical Camelot wheel (defined
independently via pitch-class arithmetic), in particular C major is `8B` and
A minor is `8A`; it returns `null` whenever the lower-cased mode is neither
`"major"` nor `"minor"`, and whenever the normalized note name is not one of
the 12 table keys. -/
theorem keyToCamelot_wheel :
    (∀ note ∈ noteNames,
      keyToCamelot note "major" = canonicalCamelot note "major" ∧
      keyToCamelot note "minor" = canonicalCamelot note "minor") ∧
    keyToCamelot "C" "major" = some "8B" ∧
    keyToCamelot "A" "minor" = some "8A" ∧
    (∀ key mode, jsToLower mode ≠ "major" → jsToLower mode ≠ "minor" →
      keyToCamelot key mode = none) ∧
    (∀ key mode, normalizeKeyName key ∉ noteNames → keyToCamelot key mode = none) := by
  refine ⟨by with_unfolding_all decide, by decide, by decide, ?_, ?_⟩
  · intro key mode h1 h2
    unfold keyToCamelot
    simp [h1, h2]
  · intro key mode hk
    unfold keyToCamelot
    by_cases h1 : jsToLower mode = "major"
    · simp only [h1, if_true]
      by_cases hl : List.lookup (normalizeKeyName key) MAJOR = none
      · exact hl
      · exact absurd (major_keys_sub _ (mem_keys_of_lookup_ne_none hl)) hk
    · by_cases h2 : jsToLower mode = "minor"
      · simp only [h1, h2, if_false, if_true]
        by_cases hl : List.lookup (normalizeKeyName key) MINOR = none
        · exact hl
        · exact absurd (minor_keys_sub _ (mem_keys_of_lookup_ne_none hl)) hk
      · simp [h1, h2]

/-- C1 witness: the amended null case applied at a concrete unrecognized
mode and a concrete unrecognized note. -/
theorem keyToCamelot_wheel_witness :
    keyToCamelot "C" "dorian" = none ∧ keyToCamelot "H" "major" = none :=
  ⟨keyToCamelot_wheel.2.2.2.1 "C" "dorian" (by decide) (by decide),
   keyToCamelot_wheel.2.2.2.2 "H" "major" (by decide)⟩

/-- C8 counterexample: `" x "` is not a recognized note spelling, yet
`normalizeKeyName` does not return it unchanged — it returns the
whitespace-normalized string `"x"`. -/
theorem normalizeKeyName_changes_unrecognized :
    normKeyCore " x ".toList = none ∧
    normalizeKeyName " x " = "x" ∧ ("x" : String) ≠ " x " :=
  ⟨by decide, by decide, by decide⟩

/-- The ten flat spellings (upper- and lower-case letter) and their sharp
equivalents, used to state the flat-mapping part of the `normalizeKeyName`
claim. -/
def flatSpellings : List (String × String) :=
  [("Db", "C#"), ("db", "C#"), ("Eb", "D#"), ("eb", "D#"), ("Gb", "F#"),
   ("gb", "F#"), ("Ab", "G#"), ("ab", "G#"), ("Bb", "A#"), ("bb", "A#")]

/-- The fourteen characters matched by `[A-Ga-g]`. -/
def noteLetters : List Char :=
  ['A', 'B', 'C', 'D', 'E', 'F', 'G', 'a', 'b', 'c', 'd', 'e', 'f', 'g']

/-- C8 (amended): `normalizeKeyName` never fails; on input whose
whitespace/glyph-normalized form is not a recognized note spelling it
returns that normalized form — not the input unchanged; it maps the five
flat spellings (either letter case) to their sharp equivalents, preserves a
single trailing `#` while upper-casing the letter, upper-cases a bare
letter, strips whitespace and converts Unicode accidentals first. -/
theorem normalizeKeyName_spec :
    (∀ s : String, normKeyCore (glyphToAscii (normalizeWhitespace s)).toList = none →
      normalizeKeyName s = glyphToAscii (normalizeWhitespace s)) ∧
    (∀ p ∈ flatSpellings, normalizeKeyName p.1 = p.2) ∧
    (∀ c ∈ noteLetters, normalizeKeyName (String.mk [c, '#']) = String.mk [c.toUpper, '#']) ∧
    (∀ c ∈ noteLetters, normalizeKeyName (String.mk [c]) = String.mk [c.toUpper]) ∧
    normalizeKeyName " C# " = "C#" ∧ normalizeKeyName "D♭" = "C#" := by
  refine ⟨?_, by decide, by decide, by decide, by decide, by decide⟩
  intro s h
  simp only [normalizeKeyName]
  rw [h]
  rfl

/-- C8 witness: the amended fallback case applied at the concrete
unrecognized input `"A minor"`. -/
theorem normalizeKeyName_spec_witness : normalizeKeyName "A  minor" = "A minor" :=
  normalizeKeyName_spec.1 "A  minor" (by decide)

/-- C9 counterexample: a `LOOKUP_CAMELOT` message with an empty `title` is
still appended to the serial queue — the field validation happens inside the
queued continuation, so the claim's "without enqueueing anything on the
serial queue" is false. -/
theorem missing_title_still_enqueued :
    onMessage ⟨"LOOKUP_CAMELOT", some "", some "x", some "k"⟩ [] =
      [⟨"LOOKUP_CAMELOT", some "", some "x", some "k"⟩] ∧
    ([(⟨"LOOKUP_CAMELOT", some "", some "x", some "k"⟩ : RuntimeMsg)] : List RuntimeMsg) ≠ [] :=
  ⟨by decide, by decide⟩

/-- C9 (amended): an accepted lookup message whose `title`, `artist` or
`cacheKey` is missing or normalizes to empty is answered with
`{ ok: true, data: null }` and performs no resolution work — but the message
is still enqueued as one continuation on the serial queue (the validation
runs inside the queued task, not before enqueueing). -/
theorem missing_fields_short_circuit (env : ResolveEnv) (cache : Cache) (now : Int)
    (m : RuntimeMsg) (hacc : acceptsMsg m = true)
    (hmiss : normalizeWhitespace (m.title.getD "") = "" ∨
      normalizeWhitespace (m.artist.getD "") = "" ∨ m.cacheKey.getD "" = "") :
    (∀ q, onMessage m q = q ++ [m]) ∧
    runQueuedLookup env cache now m = (⟨true, none⟩, false) := by
  constructor
  · intro q
    unfold onMessage
    rw [if_pos hacc]
  · unfold runQueuedLookup
    rw [if_pos hmiss]

/-- C9 witness: the amended short-circuit applied to a concrete message with
an empty title, a trivial environment and an empty cache. -/
theorem missing_fields_short_circuit_witness :
    onMessage ⟨"LOOKUP_CAMELOT", some " ", some "x", some "k"⟩ [] =
      [⟨"LOOKUP_CAMELOT", some " ", some "x", some "k"⟩] ∧
    runQueuedLookup ⟨"", false, [], [], [], [], fun _ => []⟩ (fun _ => none) 0
      ⟨"LOOKUP_CAMELOT", some " ", some "x", some "k"⟩ = (⟨true, none⟩, false) :=
  ⟨(missing_fields_short_circuit ⟨"", false, [], [], [], [], fun _ => []⟩ (fun _ => none) 0
      ⟨"LOOKUP_CAMELOT", some " ", some "x", some "k"⟩ (by decide) (by decide)).1 [],
   (missing_fields_short_circuit ⟨"", false, [], [], [], [], fun _ => []⟩ (fun _ => none) 0
      ⟨"LOOKUP_CAMELOT", some " ", some "x", some "k"⟩ (by decide) (by decide)).2⟩

/-- C4: a record cached under the looked-up key and strictly younger than 30
days is returned identically, with the cache untouched and neither provider
client invoked; a record 30 days old or older is treated as absent — the
lookup runs the full cache-miss resolution (Provider A, and Provider B when
Provider A yields nothing), stamps the new record with `now`, and overwrites
the stale entry. -/
theorem lookupCamelot_cache_ttl :
    (∀ (env : ResolveEnv) (cache : Cache) (now : Int) (cacheKey title artist : String)
      (r : ResolvedKey), cache cacheKey = some r → now - r.cachedAt < CACHE_TTL_MS →
      lookupCamelot env cache now cacheKey title artist = ⟨r, cache, false, false⟩) ∧
    (∀ (env : ResolveEnv) (cache : Cache) (now : Int) (cacheKey title artist : String)
      (r : ResolvedKey), cache cacheKey = some r → CACHE_TTL_MS ≤ now - r.cachedAt →
      lookupCamelot env cache now cacheKey title artist =
        resolveFresh env cache now cacheKey title artist ∧
      (lookupCamelot env cache now cacheKey title artist).invokedA = true ∧
      (lookupCamelot env cache now cacheKey title artist).cacheAfter cacheKey =
        some (lookupCamelot env cache now cacheKey title artist).result ∧
      (lookupCamelot env cache now cacheKey title artist).result.cachedAt = now ∧
      (lookupViaGetSongBpm env.apiKey env.gsbOk env.gsbItems title artist = none →
        (lookupCamelot env cache now cacheKey title artist).invokedB = true)) := by
  constructor
  · intro env cache now cacheKey title artist r hr hfresh
    unfold lookupCamelot
    rw [hr]
    simp only [if_pos hfresh]
  · intro env cache now cacheKey title artist r hr hstale
    have hbr : lookupCamelot env cache now cacheKey title artist =
        resolveFresh env cache now cacheKey title artist := by
      unfold lookupCamelot
      rw [hr]
      simp only [if_neg (not_lt.mpr hstale)]
    refine ⟨hbr, ?_, ?_, ?_, ?_⟩
    · rw [hbr]
      exact (resolveFresh_fields env cache now cacheKey title artist).1
    · rw [hbr]
      exact (resolveFresh_fields env cache now cacheKey title artist).2.1
    · rw [hbr]
      exact (resolveFresh_fields env cache now cacheKey title artist).2.2
    · intro hA
      rw [hbr]
      exact resolveFresh_invokedB env cache now cacheKey title artist hA

/-- C4 witness: both TTL branches at concrete inputs — a 1ms-old record is
returned unchanged with no provider invoked, and a record exactly 30 days
old is re-resolved, restamped and overwritten. -/
theorem lookupCamelot_cache_ttl_witness :
    (lookupCamelot ⟨"", false, [], [], [], [], fun _ => []⟩
        (cacheSet (fun _ => none) "k" (missRecord 0)) 1 "k" "t" "a" =
      ⟨missRecord 0, cacheSet (fun _ => none) "k" (missRecord 0), false, false⟩) ∧
    (lookupCamelot ⟨"", false, [], [], [], [], fun _ => []⟩
        (cacheSet (fun _ => none) "k" (missRecord 0)) CACHE_TTL_MS "k" "t" "a").result.cachedAt =
      CACHE_TTL_MS :=
  ⟨lookupCamelot_cache_ttl.1 ⟨"", false, [], [], [], [], fun _ => []⟩
      (cacheSet (fun _ => none) "k" (missRecord 0)) 1 "k" "t" "a" (missRecord 0)
      (by decide) (by decide),
   (lookupCamelot_cache_ttl.2 ⟨"", false, [], [], [], [], fun _ => []⟩
      (cacheSet (fun _ => none) "k" (missRecord 0)) CACHE_TTL_MS "k" "t" "a" (missRecord 0)
      (by decide) (by decide)).2.2.2.1⟩

/-- C5: with a configured API key and a successful response, the Provider A
client ranks the results descending by
`0.7 * tokenOverlapScore(title) + 0.3 * tokenOverlapScore(artist)` (the
ranked list is a permutation of the results, sorted by that score); it
examines only the top 5 in ranked order, returns a `getsongbpm` record for
the first whose key string parses — every earlier-ranked examined item
failing to parse — and returns `null` when none of the top 5 parse. -/
theorem lookupViaGetSongBpm_top5 (apiKey title artist : String) (items : List GsbItem)
    (hkey : apiKey ≠ "") (hne : items ≠ []) :
    (gsbRank title artist items).Sorted
      (fun a b => gsbScore title artist b ≤ gsbScore title artist a) ∧
    List.Perm (gsbRank title artist items) items ∧
    (∀ s k sc, firstParsed ((gsbRank title artist items).take 5) = some (s, k, sc) →
      lookupViaGetSongBpm apiKey true items title artist =
        some { camelot := jsStrOrNull (keyToCamelot k sc), key := k, mode := sc,
               provider := "getsongbpm", providerId := jsStrOrNull s.id } ∧
      ∃ pre suf, (gsbRank title artist items).take 5 = pre ++ s :: suf ∧
        ∀ x ∈ pre, parseGetsongKeyOf x.keyOf = none) ∧
    ((∀ s ∈ (gsbRank title artist items).take 5, parseGetsongKeyOf s.keyOf = none) →
      lookupViaGetSongBpm apiKey true items title artist = none) := by
  refine ⟨gsbRank_sorted title artist items, gsbRank_perm title artist items, ?_, ?_⟩
  · intro s k sc hfp
    constructor
    · unfold lookupViaGetSongBpm
      rw [if_neg hkey, if_neg (by simp), if_neg hne, hfp]
    · exact (firstParsed_eq_some hfp).2
  · intro hall
    unfold lookupViaGetSongBpm
    rw [if_neg hkey, if_neg (by simp), if_neg hne, firstParsed_eq_none.mpr hall]

/-- C5 witness: the none-of-top-5-parse case at a concrete single result
with an unparseable key string. -/
theorem lookupViaGetSongBpm_top5_witness :
    lookupViaGetSongBpm "key" true [{ title := "a", artistName := "a", keyOf := "X" }] "a" "a" =
      none :=
  (lookupViaGetSongBpm_top5 "key" "a" "a" [{ title := "a", artistName := "a", keyOf := "X" }]
    (by decide) (by decide)).2.2.2 (by with_unfolding_all decide)

/-- C3 counterexample: in a run where Provider A yields nothing and the
first Stage-1 candidate's Stage-2 lookup succeeds, the returned record's
`provider` field is not set at all (`undefined`) — the object literal in the
fallback branch never writes `provider: "musicbrainz"`. -/
theorem providerB_no_provider_field :
    abFirst envC3.ab (searchMusicBrainzRecordings envC3.mbQ1 envC3.mbQ2 envC3.mbQ3) =
      some (⟨"m1", 90⟩, "C", "major") ∧
    (lookupCamelot envC3 (fun _ => none) 0 "k" "t" "a").result.mbid = some "m1" ∧
    (lookupCamelot envC3 (fun _ => none) 0 "k" "t" "a").result.camelot = some "8B" ∧
    (lookupCamelot envC3 (fun _ => none) 0 "k" "t" "a").result.provider = none ∧
    ((none : Option (Option String)) ≠ some (some "musicbrainz")) := by
  refine ⟨by with_unfolding_all decide, by with_unfolding_all decide,
    by with_unfolding_all decide, by with_unfolding_all decide, by decide⟩

/-- C3 (amended): when the cache misses and Provider A yields nothing, the
fallback returns, for the first Stage-1 candidate (in order — all earlier
candidates' Stage-2 lookups fail) whose Stage-2 lookup succeeds, a record
whose `mbid` and `score` come from that candidate and whose Camelot code is
derived from the tonal data; no `provider` field is set (it is left
`undefined`, not `"musicbrainz"`).  When Stage 1 yields no candidate passing
the score floor, the all-null miss record (again with no `provider` field)
is returned and cached. -/
theorem providerB_orchestration (env : ResolveEnv) (cache : Cache) (now : Int)
    (cacheKey title artist : String)
    (hcache : cache cacheKey = none)
    (hA : lookupViaGetSongBpm env.apiKey env.gsbOk env.gsbItems title artist = none) :
    (∀ mb k s,
      abFirst env.ab (searchMusicBrainzRecordings env.mbQ1 env.mbQ2 env.mbQ3) =
        some (mb, k, s) →
      (lookupCamelot env cache now cacheKey title artist).result =
        { camelot := jsStrOrNull (keyToCamelot k s), key := some (normalizeKeyName k),
          mode := jsStrOrNull (some (jsToLower s)), provider := none, providerId := none,
          mbid := some mb.mbid, score := some mb.score, cachedAt := now } ∧
      (∃ pre suf, searchMusicBrainzRecordings env.mbQ1 env.mbQ2 env.mbQ3 = pre ++ mb :: suf ∧
        ∀ c ∈ pre, fetchAcousticBrainzKeyAnySubmission (env.ab c.mbid) = none) ∧
      (lookupCamelot env cache now cacheKey title artist).cacheAfter cacheKey =
        some (lookupCamelot env cache now cacheKey title artist).result) ∧
    (searchMusicBrainzRecordings env.mbQ1 env.mbQ2 env.mbQ3 = [] →
      (lookupCamelot env cache now cacheKey title artist).result = missRecord now ∧
      (lookupCamelot env cache now cacheKey title artist).cacheAfter cacheKey =
        some (missRecord now)) := by
  have hlc : lookupCamelot env cache now cacheKey title artist =
      resolveFresh env cache now cacheKey title artist := by
    unfold lookupCamelot
    rw [hcache]
  constructor
  · intro mb k s habf
    have hsplit := (abFirst_eq_some habf).2
    rw [hlc]
    unfold resolveFresh
    rw [hA]
    dsimp only
    cases hC : searchMusicBrainzRecordings env.mbQ1 env.mbQ2 env.mbQ3 with
    | nil =>
      rw [hC] at habf
      simp [abFirst] at habf
    | cons c0 tl =>
      rw [hC] at habf
      rw [habf]
      rw [hC] at hsplit
      exact ⟨rfl, hsplit, by simp [cacheSet]⟩
  · intro hC
    rw [hlc]
    unfold resolveFresh
    rw [hA]
    dsimp only
    rw [hC]
    exact ⟨rfl, by simp [cacheSet]⟩

/-- C3 witness: the amended fallback applied to the concrete environment
`envC3`, producing the C-major record of the first (and only) candidate. -/
theorem providerB_orchestration_witness :
    (lookupCamelot envC3 (fun _ => none) 0 "k" "t" "a").result =
      { camelot := jsStrOrNull (keyToCamelot "C" "major"),
        key := some (normalizeKeyName "C"), mode := jsStrOrNull (some (jsToLower "major")),
        provider := none, providerId := none,
        mbid := some (⟨"m1", 90⟩ : MBCand).mbid, score := some (⟨"m1", 90⟩ : MBCand).score,
        cachedAt := 0 } :=
  ((providerB_orchestration envC3 (fun _ => none) 0 "k" "t" "a" rfl
      (by with_unfolding_all decide)).1 ⟨"m1", 90⟩ "C" "major"
      (by with_unfolding_all decide)).1

/-- C10: a Provider A result whose raw key string parses but maps to no
Camelot code — `key_of = "B#"` parses to note `B#`, major, which is absent
from the `MAJOR` table — yields a non-null `getsongbpm` record with
`camelot: null` and `key: "B#"`, and the orchestrator caches it as a
positive outcome without invoking the Provider B fallback. -/
theorem parseable_key_without_camelot :
    parseGetsongKeyOf "B#" = some ("B#", "major") ∧
    keyToCamelot "B#" "major" = none ∧
    lookupViaGetSongBpm "key" true
        [{ title := "t", artistName := "a", keyOf := "B#", id := some "song1" }] "t" "a" =
      some { camelot := none, key := "B#", mode := "major",
             provider := "getsongbpm", providerId := some "song1" } ∧
    (lookupCamelot envBSharp (fun _ => none) 0 "k" "t" "a").result =
      { camelot := none, key := some "B#", mode := some "major",
        provider := some (some "getsongbpm"), providerId := some (some "song1"),
        mbid := none, score := none, cachedAt := 0 } ∧
    (lookupCamelot envBSharp (fun _ => none) 0 "k" "t" "a").invokedB = false ∧
    (lookupCamelot envBSharp (fun _ => none) 0 "k" "t" "a").cacheAfter "k" =
      some (lookupCamelot envBSharp (fun _ => none) 0 "k" "t" "a").result := by
  refine ⟨by decide, by decide, by with_unfolding_all decide, by with_unfolding_all decide,
    by with_unfolding_all decide, by with_unfolding_all decide⟩

/-- C2 counterexample: one AcousticBrainz candidate lookup issues its (up to
three) requests back-to-back — the gap between consecutive requests is just
the previous response's latency (here 5ms and 7ms), with no 1100ms spacing,
because `fetchAcousticBrainzKeyAnySubmission` calls `fetch` directly instead
of the rate limiter. -/
theorem acousticbrainz_requests_not_spaced :
    abFetchTimes 0
        [(5, ABResp.ok (some "C") none), (7, ABResp.ok (some "C") none), (9, ABResp.fail)] =
      [0, 5, 12] ∧
    ((5 : Int) - 0 < MB_MIN_INTERVAL_MS ∧ (12 : Int) - 5 < MB_MIN_INTERVAL_MS) :=
  ⟨by decide, by decide⟩

/-- Each rate-limited issue time is at least `last + 1100`. -/
lemma mbIssue_head_ge (last : Int) (nows : List Int) :
    ∀ x ∈ (mbIssueTimes last nows).head?, last + MB_MIN_INTERVAL_MS ≤ x := by
  cases nows with
  | nil => simp [mbIssueTimes]
  | cons now rest =>
    intro x hx
    simp only [mbIssueTimes, List.head?_cons, Option.mem_def, Option.some.injEq] at hx
    subst hx
    calc last + MB_MIN_INTERVAL_MS = now + (MB_MIN_INTERVAL_MS - (now - last)) := by ring
    _ ≤ now + max 0 (MB_MIN_INTERVAL_MS - (now - last)) :=
        add_le_add_left (le_max_right _ _) now

/-- C2 (amended): requests issued through `rateLimitedMusicBrainzFetch` (the
recording-search service) are pairwise at least 1100ms apart, whatever the
call times; but the audio-features requests of
`fetchAcousticBrainzKeyAnySubmission` are issued without the rate limiter —
consecutive requests are separated only by the previous response's latency,
which can be any non-negative duration. -/
theorem providerB_rate_limit (last : Int) (nows : List Int) :
    List.Chain' (fun a b => a + MB_MIN_INTERVAL_MS ≤ b) (mbIssueTimes last nows) ∧
    (∀ g : Int, 0 ≤ g → ∃ t0 env, abFetchTimes t0 env = [t0, t0 + g]) := by
  constructor
  · induction nows generalizing last with
    | nil => simp [mbIssueTimes]
    | cons now rest ih =>
      rw [mbIssueTimes]
      exact List.chain'_cons'.mpr ⟨mbIssue_head_ge _ rest, ih _⟩
  · intro g _
    refine ⟨0, [(g, ABResp.ok (some "C") none), (1, ABResp.fail)], ?_⟩
    simp [abFetchTimes, abFetchTimesAux, jsTruthyStr]

/-- C2 witness: the spacing guarantee at concrete call times, and a concrete
5ms gap between consecutive unlimited audio-features requests. -/
theorem providerB_rate_limit_witness :
    List.Chain' (fun a b => a + MB_MIN_INTERVAL_MS ≤ b) (mbIssueTimes 0 [100, 200, 2500]) ∧
    ∃ t0 env, abFetchTimes t0 env = [t0, t0 + 5] :=
  ⟨(providerB_rate_limit 0 [100, 200, 2500]).1,
   (providerB_rate_limit 0 []).2 5 (by decide)⟩

end Ytm
